import Mathlib

/-!
The baton-buildkite connector: paginated GraphQL query protocol and result projection.

A shallow embedding of `pkg/client/queries.go`, `pkg/client/buildkite.go` and
`pkg/connector/users.go`.

Conventions of the embedding:

* a Go pointer `*T` is an `Option T` (`none` is the nil pointer);
* a Go function that may panic returns `Except Panic _`;
* a Go result pair `(*T, error)` is `Option T × Option GoError`;
* the collaborators that live outside the repository (the token source, the
  `uhttp` client, `resourceSdk.NewUserResource`) are fields of the client or
  parameters of the functions that call them;
* `spew.Dump` only prints and is left out.
-/

set_option linter.dupNamespace false
set_option maxRecDepth 100000

namespace Buildkite

/-! ## Errors and `fmt` -/

/-- Go `error` values: a leaf error carrying its message, or the `*fmt.wrapError`
built by `fmt.Errorf` with a `%w` verb. -/
inductive GoError where
  | errorString (s : String)
  | wrapError (msg : String) (err : GoError)
deriving DecidableEq, Repr

/-- Method `Error()` of a Go error. -/
def GoError.Error : GoError → String
  | .errorString s => s
  | .wrapError msg _ => msg

/-- Method `Unwrap()`: the wrapped cause, if any. -/
def GoError.Unwrap : GoError → Option GoError
  | .errorString _ => none
  | .wrapError _ err => some err

/-- Operands of a `fmt` call, as far as this program passes them. -/
inductive Arg where
  | int (n : Int)
  | str (s : String)
  | err (e : GoError)
deriving DecidableEq, Repr

/-- Text that `fmt` prints for one verb and one operand. The verb and operand
pairs the program uses (`%d` on an integer, `%s` on a string, `%w` on an error)
are exact; any other pair gives the bad-verb marker of `fmt`, shortened. -/
def formatArg (verb : Char) (a : Arg) : List Char :=
  match a with
  | .int n => if verb = 'd' ∨ verb = 'v' then (toString n).data else '%' :: '!' :: verb :: "(int)".data
  | .str s => if verb = 's' ∨ verb = 'v' then s.data else '%' :: '!' :: verb :: "(string)".data
  | .err e => if verb = 's' ∨ verb = 'v' ∨ verb = 'w' then e.Error.data else '%' :: '!' :: verb :: "(error)".data

/-- The formatting loop of `fmt.Sprintf` over the characters of the format:
plain characters are copied, `%%` prints a percent sign, `%x` consumes the
next operand, a verb without an operand prints `%!x(MISSING)`, and operands
left over at the end are reported with `%!(EXTRA)`. Flags, widths and
precisions do not occur in the formats of this program and are not modelled. -/
def doPrintf : List Char → List Arg → List Char
  | [], [] => []
  | [], _ :: _ => "%!(EXTRA)".data
  | '%' :: '%' :: rest, args => '%' :: doPrintf rest args
  | '%' :: verb :: rest, a :: args => formatArg verb a ++ doPrintf rest args
  | '%' :: verb :: rest, [] => '%' :: '!' :: verb :: ("(MISSING)".data ++ doPrintf rest [])
  | ['%'], _ => "%!(NOVERB)".data
  | ch :: rest, args => ch :: doPrintf rest args

/-- Go `fmt.Sprintf`. -/
def Sprintf (format : String) (args : List Arg) : String :=
  String.mk (doPrintf format.data args)

/-- The operand bound to the first `%w` verb of a format, when it is an error. -/
def wrappedOperand : List Char → List Arg → Option GoError
  | [], _ => none
  | '%' :: '%' :: rest, args => wrappedOperand rest args
  | '%' :: 'w' :: _, .err e :: _ => some e
  | '%' :: _ :: rest, _ :: args => wrappedOperand rest args
  | '%' :: _ :: _, [] => none
  | ['%'], _ => none
  | _ :: rest, args => wrappedOperand rest args

/-- Go `fmt.Errorf`: the message is the formatted text, and with a `%w` verb on
an error operand the result wraps that operand. -/
def Errorf (format : String) (args : List Arg) : GoError :=
  match wrappedOperand format.data args with
  | some e => .wrapError (Sprintf format args) e
  | none => .errorString (Sprintf format args)

/-! ## `queries.go` -/

def perPageQuery : Int := 100

def firstPagePagination : String := "first: %d"

def nextPagePagination : String := "first: %d after: %s"

def getAllUsersQuery : String :=
  "query getOrgMembers\x7b\n  organization(slug: \"%s\") \x7b\n    members(%s ) \x7b\n      edges \x7b\n        node \x7b\n          role\n          user \x7b\n            name\n            email\n            id\n          \x7d\n        \x7d\n      \x7d\n    \x7d\n  \x7d\n\x7d"

def getInfoQuery : String :=
  "query getInfo \x7b\n  viewer \x7b\n    user\x7b\n      id\n      email\n      name\n    \x7d\n  \x7d\n\x7d\n"

def getTeamsQuery : String :=
  "query getTeams \x7b\n  organization(slug: \"%s\") \x7b\n    teams(%s) \x7b\n      edges \x7b\n        node \x7b\n          slug\n          name\n          id\n        \x7d\n      \x7d\n    \x7d\n  \x7d\n\x7d"

def getTeamMemberListQuery : String :=
  "query getTeamMembers \x7b\n  team(slug: \"%s\") \x7b\n    members(%s) \x7b\n      edges \x7b\n        node \x7b\n          role\n          id\n          user \x7b\n            name\n            email\n            id\n          \x7d\n        \x7d\n      \x7d\n    \x7d\n  \x7d\n\x7d"

def pagination (pg : String) : String :=
  if pg = "" then
    Sprintf firstPagePagination [.int perPageQuery]
  else
    Sprintf nextPagePagination [.int perPageQuery, .str pg]

def allUsersQuery (orgSlug : String) (pg : String) : String :=
  Sprintf getAllUsersQuery [.str orgSlug, .str (pagination pg)]

def teamsQuery (orgSlug : String) (pg : String) : String :=
  Sprintf getTeamsQuery [.str orgSlug, .str (pagination pg)]

def infoQuery : String := getInfoQuery

def teamMembersQuery (teamOrgSlug : String) (pg : String) : String :=
  Sprintf getTeamMemberListQuery [.str teamOrgSlug, .str (pagination pg)]

/-! ## `buildkite.go`: data model -/

def GraphQLDomain : String := "graphql.buildkite.com"

def GraphQLVersion : String := "v1"

structure Query where
  Query : String
  Variables : List (String × String) := []
deriving DecidableEq, Repr

structure User where
  ID : String := ""
  Email : String := ""
  Name : String := ""
deriving DecidableEq, Repr

structure Team where
  OrgSlug : String := ""
  Slug : String := ""
  Name : String := ""
  ID : String := ""
deriving DecidableEq, Repr

structure TeamGrant where
  TeamID : String := ""
  PrincipalID : String := ""
deriving DecidableEq, Repr

/-- Node of an edge of `UsersQueryResponse`. -/
structure UsersNode where
  ID : String := ""
  Role : String := ""
  User : Option User := none
deriving DecidableEq, Repr

structure UsersEdge where
  Node : UsersNode := {}
deriving DecidableEq, Repr

structure UsersMembers where
  Edges : List UsersEdge := []
deriving DecidableEq, Repr

structure UsersOrganization where
  Members : UsersMembers := {}
deriving DecidableEq, Repr

structure UsersData where
  Organization : UsersOrganization := {}
deriving DecidableEq, Repr

structure UsersQueryResponse where
  Data : UsersData := {}
deriving DecidableEq, Repr

structure TeamsEdge where
  Node : Option Team := none
deriving DecidableEq, Repr

structure TeamsTeams where
  Edges : List TeamsEdge := []
deriving DecidableEq, Repr

structure TeamsOrganization where
  Teams : TeamsTeams := {}
deriving DecidableEq, Repr

structure TeamsData where
  Organization : TeamsOrganization := {}
deriving DecidableEq, Repr

structure TeamsQueryResponse where
  Data : TeamsData := {}
deriving DecidableEq, Repr

/-- Node of an edge of `TeamMembersQueryResponse`. -/
structure TeamMembersNode where
  Role : String := ""
  ID : String := ""
  User : Option User := none
deriving DecidableEq, Repr

structure TeamMembersEdge where
  Node : TeamMembersNode := {}
deriving DecidableEq, Repr

structure TeamMembersMembers where
  Edges : List TeamMembersEdge := []
deriving DecidableEq, Repr

structure TeamMembersTeam where
  Members : TeamMembersMembers := {}
deriving DecidableEq, Repr

structure TeamMembersData where
  Team : TeamMembersTeam := {}
deriving DecidableEq, Repr

structure TeamMembersQueryResponse where
  Data : TeamMembersData := {}
deriving DecidableEq, Repr

/-- The message `v2.RateLimitDescription` of the SDK. -/
structure RateLimitDescription where
  Status : Nat := 0
  Limit : Int := 0
  Remaining : Int := 0
  ResetAt : Int := 0
deriving DecidableEq, Repr

structure UsersResponse where
  Users : List (Option User)
  RateLimitDescription : Option RateLimitDescription
  Pagination : String
deriving DecidableEq, Repr

structure TeamsGrantsResponse where
  Grants : List (Option TeamGrant)
  RateLimitDescription : Option RateLimitDescription
  Pagination : String
deriving DecidableEq, Repr

structure TeamsResponse where
  Teams : List (Option Team)
  RateLimitDescription : Option RateLimitDescription
  Pagination : String
deriving DecidableEq, Repr

/-! ## `buildkite.go`: the client and its collaborators -/

/-- Run-time panics of the Go code. -/
inductive Panic where
  | nilPointerDereference
  | indexOutOfRange
deriving DecidableEq, Repr

structure Token where
  AccessToken : String
deriving DecidableEq, Repr

/-- The request handed to the HTTP client. -/
structure Request where
  method : String
  url : String
  contentTypeJSON : Bool
  body : Query
  authorization : String
deriving DecidableEq, Repr

/-- What one call of `c.client.Do(req, WithJSONResponse(res), WithRatelimitData(rld))`
leaves behind: the contents of `res` and of `rld` after the call, the status
code of the response, and the error returned. -/
structure DoResult (R : Type) where
  res : R
  rld : RateLimitDescription
  StatusCode : Nat
  err : Option GoError

/-- The client `connectorClient`, for a response shape `R`. Its fields are
the collaborators outside the repository: `Token` is the result of
`c.tokenSource.Token()`, `NewRequest` is `c.client.NewRequest` on method, URL,
JSON body and authorization header, and `Do` is `c.client.Do` on the request and
the initial contents of `res` and `rld`. -/
structure connectorClient (R : Type) where
  Token : Except GoError Token
  NewRequest : String → String → Query → String → Except GoError Request
  Do : Request → R → RateLimitDescription → DoResult R

/-- Method `query`. The result is the contents of `res` after the call
together with the two values returned. -/
def query {R : Type} (c : connectorClient R) (rawQuery : String) (res : R) :
    R × Option RateLimitDescription × Option GoError :=
  let reqUrl := "https://" ++ GraphQLDomain ++ "/" ++ GraphQLVersion
  let q : Query := { Query := rawQuery }
  match c.Token with
  | .error err => (res, none, some err)
  | .ok token =>
    match c.NewRequest "POST" reqUrl q ("Bearer " ++ token.AccessToken) with
    | .error err => (res, none, some err)
    | .ok req =>
      let rld : RateLimitDescription := {}
      let httpResp := c.Do req res rld
      match httpResp.err with
      | some err => (httpResp.res, none, some err)
      | none => (httpResp.res, some httpResp.rld, none)

/-- The range loop of `ListUsers` from index `i` on: the state is the slice
`users` and `lastIndex`. -/
def ListUsers.loop : List UsersEdge → Nat → List (Option User) × Int → List (Option User) × Int
  | [], _, st => st
  | edge :: rest, i, (users, _) => ListUsers.loop rest (i + 1) (users ++ [edge.Node.User], (i : Int))

def ListUsers (c : connectorClient UsersQueryResponse) (orgSlug : String) (pg : String) :
    Except Panic (Option UsersResponse × Option GoError) :=
  match query c (allUsersQuery orgSlug pg) {} with
  | (_, _, some err) =>
    .ok (none, some (Errorf "buildkite-client: error getting all users %w" [.err err]))
  | (resp, rld, none) =>
    let (users, lastIndex) := ListUsers.loop resp.Data.Organization.Members.Edges 0 ([], -1)
    if lastIndex > -1 then
      match resp.Data.Organization.Members.Edges.get? lastIndex.toNat with
      | none => .error .indexOutOfRange
      | some edge =>
        .ok (some { Users := users, RateLimitDescription := rld, Pagination := edge.Node.ID }, none)
    else
      .ok (some { Users := users, RateLimitDescription := rld, Pagination := "" }, none)

/-- State of the range loop of `ListTeams`: the edges of the decoded response
(whose nodes the loop writes through the pointer `team`), the slice `teams`
and `lastIndex`. -/
structure TeamsLoopState where
  Edges : List TeamsEdge
  teams : List (Option Team)
  lastIndex : Int
deriving DecidableEq, Repr

/-- The range loop of `ListTeams` from index `i` on. The statement
`team.OrgSlug = orgSlug` writes to the team that edge `i` points to and panics
on a nil node. -/
def ListTeams.loop (orgSlug : String) : List TeamsEdge → Nat → TeamsLoopState → Except Panic TeamsLoopState
  | [], _, st => .ok st
  | edge :: rest, i, st =>
    match edge.Node with
    | none => .error .nilPointerDereference
    | some team =>
      let team := { team with OrgSlug := orgSlug }
      ListTeams.loop orgSlug rest (i + 1)
        { Edges := st.Edges.set i { Node := some team }, teams := st.teams ++ [some team], lastIndex := (i : Int) }

def ListTeams (c : connectorClient TeamsQueryResponse) (orgSlug : String) (pg : String) :
    Except Panic (Option TeamsResponse × Option GoError) :=
  match query c (teamsQuery orgSlug pg) {} with
  | (_, _, some err) =>
    .ok (none, some (Errorf "buildkite-client: error getting teams %w" [.err err]))
  | (resp, rld, none) =>
    match ListTeams.loop orgSlug resp.Data.Organization.Teams.Edges 0
        { Edges := resp.Data.Organization.Teams.Edges, teams := [], lastIndex := -1 } with
    | .error p => .error p
    | .ok st =>
      if st.lastIndex > -1 then
        match st.Edges.get? st.lastIndex.toNat with
        | none => .error .indexOutOfRange
        | some edge =>
          match edge.Node with
          | none => .error .nilPointerDereference
          | some node =>
            .ok (some { Teams := st.teams, RateLimitDescription := rld, Pagination := node.ID }, none)
      else
        .ok (some { Teams := st.teams, RateLimitDescription := rld, Pagination := "" }, none)

/-- The range loop of `ListTeamGrants` from index `i` on; `edge.Node.User.ID`
panics on a nil user. -/
def ListTeamGrants.loop (teamOrgSlug : String) :
    List TeamMembersEdge → Nat → List (Option TeamGrant) × Int → Except Panic (List (Option TeamGrant) × Int)
  | [], _, st => .ok st
  | edge :: rest, i, (grants, _) =>
    match edge.Node.User with
    | none => .error .nilPointerDereference
    | some user =>
      ListTeamGrants.loop teamOrgSlug rest (i + 1)
        (grants ++ [some { TeamID := teamOrgSlug, PrincipalID := user.ID }], (i : Int))

def ListTeamGrants (c : connectorClient TeamMembersQueryResponse) (teamOrgSlug : String) (pg : String) :
    Except Panic (Option TeamsGrantsResponse × Option GoError) :=
  match query c (teamMembersQuery teamOrgSlug pg) {} with
  | (_, _, some err) =>
    .ok (none, some (Errorf "buildkite-client: error getting team members for %s: %w"
      [.str teamOrgSlug, .err err]))
  | (resp, rld, none) =>
    match ListTeamGrants.loop teamOrgSlug resp.Data.Team.Members.Edges 0 ([], -1) with
    | .error p => .error p
    | .ok (grants, lastIndex) =>
      if lastIndex > -1 then
        match resp.Data.Team.Members.Edges.get? lastIndex.toNat with
        | none => .error .indexOutOfRange
        | some edge =>
          .ok (some { Grants := grants, RateLimitDescription := rld, Pagination := edge.Node.ID }, none)
      else
        .ok (some { Grants := grants, RateLimitDescription := rld, Pagination := "" }, none)

/-! ## `users.go` -/

structure ResourceId where
  ResourceType : String := ""
  Resource : String := ""
deriving DecidableEq, Repr

/-- The pagination token `pagination.Token` of the SDK. -/
structure PageToken where
  Size : Int := 0
  Token : String := ""
deriving DecidableEq, Repr

/-- The user trait options that `userResource` passes on: `WithEmail(email, true)`,
`WithStatus(STATUS_ENABLED)` and `WithUserProfile(profile)`. -/
structure UserTraitOptions where
  email : String
  primary : Bool
  statusEnabled : Bool
  profile : List (String × String)
deriving DecidableEq, Repr

/-- One rate-limit entry of an SDK annotation list. -/
structure RateLimitEntry where
  desc : Option RateLimitDescription
deriving DecidableEq, Repr

/-- The SDK type `annotations.Annotations`; only rate-limit entries occur here. -/
abbrev Annotations := List RateLimitEntry

/-- SDK method `WithRateLimiting`: replace the rate-limit entry, or append one. -/
def WithRateLimiting (a : Annotations) (rateLimit : Option RateLimitDescription) : Annotations :=
  match a with
  | [] => [{ desc := rateLimit }]
  | _ :: rest => { desc := rateLimit } :: rest

/-- The SDK constructor `resourceSdk.NewUserResource`, a collaborator outside the
repository, on the display name, the object id, the trait options and the
parent resource id; the resource type is the fixed `userResourceType`. -/
abbrev NewUserResourceFn (Res : Type) :=
  String → String → UserTraitOptions → Option ResourceId → Option Res × Option GoError

def userResource {Res : Type} (NewUserResource : NewUserResourceFn Res)
    (user : Option User) (parentResourceID : Option ResourceId) :
    Except Panic (Option Res × Option GoError) :=
  match user with
  | none => .error .nilPointerDereference
  | some user =>
    let profile := [("id", user.ID), ("email", user.Email)]
    let userTraitOptions : UserTraitOptions :=
      { email := user.Email, primary := true, statusEnabled := true, profile := profile }
    .ok (NewUserResource user.Name user.ID userTraitOptions parentResourceID)

structure userBuilder where
  c : connectorClient UsersQueryResponse
  org : String

/-- The range loop of `userBuilder.List` over `resp.Users`: either the slice
`outputResources` at the end, or the error of the early return. -/
def userBuilder.List.loop {Res : Type} (NewUserResource : NewUserResourceFn Res)
    (parentResourceID : Option ResourceId) :
    List (Option User) → List (Option Res) → Except Panic (List (Option Res) × Option GoError)
  | [], outputResources => .ok (outputResources, none)
  | user :: rest, outputResources =>
    match userResource NewUserResource user parentResourceID with
    | .error p => .error p
    | .ok (_, some err) => .ok ([], some err)
    | .ok (userResource0, none) =>
      userBuilder.List.loop NewUserResource parentResourceID rest (outputResources ++ [userResource0])

/-- Method `List` of `userBuilder`: resources, next token, annotations, error.
A nil slice is the empty list. -/
def userBuilder.List {Res : Type} (NewUserResource : NewUserResourceFn Res) (o : userBuilder)
    (parentResourceID : Option ResourceId) (pToken : Option PageToken) :
    Except Panic (List (Option Res) × String × Annotations × Option GoError) :=
  match pToken with
  | none => .error .nilPointerDereference
  | some tok =>
    match ListUsers o.c o.org tok.Token with
    | .error p => .error p
    | .ok (resp, err) =>
      let outputAnnotations : Annotations :=
        match resp with
        | some r => WithRateLimiting [] r.RateLimitDescription
        | none => []
      match err with
      | some err => .ok ([], "", outputAnnotations, some err)
      | none =>
        match resp with
        | none => .error .nilPointerDereference
        | some r =>
          match userBuilder.List.loop NewUserResource parentResourceID r.Users [] with
          | .error p => .error p
          | .ok (_, some err) => .ok ([], "", [], some err)
          | .ok (outputResources, none) => .ok (outputResources, r.Pagination, outputAnnotations, none)

/-! ## Clients used as concrete inputs -/

/-- A client whose token and request construction succeed and whose HTTP call
decodes `resp` into `res`, writes `rld` and returns no error. -/
def servingClient {R : Type} (resp : R) (rld : RateLimitDescription) : connectorClient R where
  Token := .ok { AccessToken := "secret" }
  NewRequest := fun method url body auth =>
    .ok { method := method, url := url, contentTypeJSON := true, body := body, authorization := auth }
  Do := fun _ _ _ => { res := resp, rld := rld, StatusCode := 200, err := none }

/-- A client whose HTTP call fails with `err` after writing `rld`, leaving `res`
as it was. -/
def failingClient {R : Type} (rld : RateLimitDescription) (status : Nat) (err : GoError) :
    connectorClient R where
  Token := .ok { AccessToken := "secret" }
  NewRequest := fun method url body auth =>
    .ok { method := method, url := url, contentTypeJSON := true, body := body, authorization := auth }
  Do := fun _ res _ => { res := res, rld := rld, StatusCode := status, err := some err }

/-- Decoded users page with the given edges. -/
def usersPage (edges : List UsersEdge) : UsersQueryResponse :=
  { Data := { Organization := { Members := { Edges := edges } } } }

/-- Decoded teams page with the given edges. -/
def teamsPage (edges : List TeamsEdge) : TeamsQueryResponse :=
  { Data := { Organization := { Teams := { Edges := edges } } } }

/-- Decoded team-members page with the given edges. -/
def teamMembersPage (edges : List TeamMembersEdge) : TeamMembersQueryResponse :=
  { Data := { Team := { Members := { Edges := edges } } } }

/-- Two members: users `u1` and `u2` under membership nodes `n1` and `n2`. -/
def twoUsersEdges : List UsersEdge :=
  [ { Node := { ID := "n1", Role := "ADMIN", User := some { ID := "u1", Email := "a@x.io", Name := "A" } } },
    { Node := { ID := "n2", Role := "MEMBER", User := some { ID := "u2", Email := "b@x.io", Name := "B" } } } ]

def sampleRld : RateLimitDescription :=
  { Status := 1, Limit := 200, Remaining := 199, ResetAt := 60 }

/-- Two teams as the server sends them, without an org slug. -/
def twoTeamsEdges : List TeamsEdge :=
  [ { Node := some { Slug := "ops", Name := "Ops", ID := "t1" } },
    { Node := some { OrgSlug := "other", Slug := "dev", Name := "Dev", ID := "t2" } } ]

/-- Two team members: users `u1` and `u2` under membership nodes `m1` and `m2`. -/
def twoMembersEdges : List TeamMembersEdge :=
  [ { Node := { Role := "MAINTAINER", ID := "m1", User := some { ID := "u1", Email := "a@x.io", Name := "A" } } },
    { Node := { Role := "MEMBER", ID := "m2", User := some { ID := "u2", Email := "b@x.io", Name := "B" } } } ]

/-- The edge as `ListTeams` leaves it: the team it points to has `OrgSlug`
overwritten with the caller's slug. -/
def attachOrgSlug (orgSlug : String) (e : TeamsEdge) : TeamsEdge :=
  { Node := e.Node.map (fun team => { team with OrgSlug := orgSlug }) }

/-- A resource as `NewUserResource` would assemble it from its arguments. -/
structure UserResource where
  DisplayName : String
  ObjectId : String
  Traits : UserTraitOptions
  Parent : Option ResourceId
deriving DecidableEq, Repr

/-- A stand-in for `resourceSdk.NewUserResource` that records its arguments
and never fails. -/
def recordUserResource : NewUserResourceFn UserResource :=
  fun name id opts parent =>
    (some { DisplayName := name, ObjectId := id, Traits := opts, Parent := parent }, none)

/-- Rate-limit data of an exhausted quota, as sent with a 429 response. -/
def exhaustedRld : RateLimitDescription :=
  { Status := 2, Limit := 200, Remaining := 0, ResetAt := 30 }

/-- The error of the HTTP client for a 429 response. -/
def tooManyRequests : GoError := .errorString "429 Too Many Requests: rate limited"

/-- A members page as a server sends it when it answers exactly the fields of
`getAllUsersQuery`: the membership nodes have no `id`, so `Node.ID` keeps its
zero value. -/
def usersEdgesAsRequested : List UsersEdge :=
  [ { Node := { Role := "ADMIN", User := some { ID := "u1", Email := "a@x.io", Name := "A" } } },
    { Node := { Role := "MEMBER", User := some { ID := "u2", Email := "b@x.io", Name := "B" } } } ]

/-! ## Reading the selection set of `node` off a rendered query -/

/-- Tokens of a GraphQL document, as far as selection sets need them. -/
inductive Tok where
  | name (s : String)
  | lbrace
  | rbrace
deriving DecidableEq, Repr

def isNameChar (ch : Char) : Bool := ch.isAlphanum || ch = '_'

/-- Close the name collected so far (its characters are in reverse). -/
def flushName (acc : List Char) (toks : List Tok) : List Tok :=
  if acc = [] then toks else .name (String.mk acc.reverse) :: toks

/-- Tokens of a document: names and braces. Argument lists in parentheses and
string literals are skipped (`inArgs`, `inStr` tell where the scan is). -/
def lexQuery : List Char → List Char → Bool → Bool → List Tok
  | [], acc, _, _ => flushName acc []
  | ch :: rest, acc, inArgs, true =>
    if ch = '\"' then lexQuery rest acc inArgs false else lexQuery rest acc inArgs true
  | ch :: rest, acc, true, false =>
    if ch = '\"' then lexQuery rest acc true true
    else if ch = ')' then lexQuery rest acc false false
    else lexQuery rest acc true false
  | ch :: rest, acc, false, false =>
    if isNameChar ch then lexQuery rest (ch :: acc) false false
    else if ch = '\"' then flushName acc (lexQuery rest [] false true)
    else if ch = '(' then flushName acc (lexQuery rest [] true false)
    else if ch = '\x7b' then flushName acc (.lbrace :: lexQuery rest [] false false)
    else if ch = '\x7d' then flushName acc (.rbrace :: lexQuery rest [] false false)
    else flushName acc (lexQuery rest [] false false)

/-- Names at nesting depth 1 up to the brace that closes the selection set. -/
def fieldsAtTop : List Tok → Nat → List String
  | [], _ => []
  | .lbrace :: rest, d => fieldsAtTop rest (d + 1)
  | .rbrace :: rest, d => if d ≤ 1 then [] else fieldsAtTop rest (d - 1)
  | .name s :: rest, d => if d = 1 then s :: fieldsAtTop rest d else fieldsAtTop rest d

/-- Fields of the selection set of the first `node` field of a token list. -/
def nodeFields : List Tok → List String
  | [] => []
  | .name s :: .lbrace :: rest => if s = "node" then fieldsAtTop rest 1 else nodeFields rest
  | _ :: rest => nodeFields rest

/-- Fields that a rendered query selects directly under `node`. -/
def nodeSelection (q : String) : List String :=
  nodeFields (lexQuery q.data [] false false)

/-! ## Lemmas on the loops -/

theorem ListUsers_loop_eq (edges : List UsersEdge) (i : Nat) (users : List (Option User)) (li : Int) :
    ListUsers.loop edges i (users, li)
      = (users ++ edges.map (fun e => e.Node.User),
          if edges = [] then li else ((i + edges.length - 1 : Nat) : Int)) := by
  induction edges generalizing i users li with
  | nil => simp [ListUsers.loop]
  | cons e rest ih =>
    rw [ListUsers.loop, ih]
    cases rest with
    | nil => simp
    | cons e2 rest2 =>
      simp only [List.map_cons, List.append_assoc, List.singleton_append, List.length_cons,
        reduceCtorEq, if_false]
      congr 2
      omega

theorem get?_pred_length_eq_getLast? {α : Type} (l : List α) :
    l.get? (l.length - 1) = l.getLast? := by
  rw [List.getLast?_eq_getElem?, List.get?_eq_getElem?]

theorem pagination_empty : pagination "" = "first: 100" := by decide

theorem pagination_data_of_ne (c : String) (h : c ≠ "") :
    (pagination c).data = "first: 100 after: ".data ++ c.data := by
  unfold pagination
  rw [if_neg h]
  have hd : (Sprintf nextPagePagination [.int perPageQuery, .str c]).data
      = "first: 100 after: ".data ++ (c.data ++ []) := rfl
  rw [hd, List.append_nil]

theorem pagination_of_ne (c : String) (h : c ≠ "") : pagination c = "first: 100 after: " ++ c := by
  apply String.ext
  rw [pagination_data_of_ne c h, String.data_append]

theorem pagination_starts_with_page_size (c : String) :
    "first: 100".data <+: (pagination c).data := by
  by_cases h : c = ""
  · subst h
    exact ⟨[], by decide⟩
  · rw [pagination_data_of_ne c h]
    exact ⟨" after: ".data ++ c.data, rfl⟩

theorem allUsersQuery_eq (orgSlug pg : String) :
    allUsersQuery orgSlug pg
      = "query getOrgMembers\x7b\n  organization(slug: \"" ++ orgSlug
        ++ "\") \x7b\n    members(" ++ pagination pg
        ++ " ) \x7b\n      edges \x7b\n        node \x7b\n          role\n          user \x7b\n            name\n            email\n            id\n          \x7d\n        \x7d\n      \x7d\n    \x7d\n  \x7d\n\x7d" := by
  apply String.ext
  simp only [String.data_append, List.append_assoc]
  rfl

theorem teamsQuery_eq (orgSlug pg : String) :
    teamsQuery orgSlug pg
      = "query getTeams \x7b\n  organization(slug: \"" ++ orgSlug
        ++ "\") \x7b\n    teams(" ++ pagination pg
        ++ ") \x7b\n      edges \x7b\n        node \x7b\n          slug\n          name\n          id\n        \x7d\n      \x7d\n    \x7d\n  \x7d\n\x7d" := by
  apply String.ext
  simp only [String.data_append, List.append_assoc]
  rfl

theorem teamMembersQuery_eq (teamOrgSlug pg : String) :
    teamMembersQuery teamOrgSlug pg
      = "query getTeamMembers \x7b\n  team(slug: \"" ++ teamOrgSlug
        ++ "\") \x7b\n    members(" ++ pagination pg
        ++ ") \x7b\n      edges \x7b\n        node \x7b\n          role\n          id\n          user \x7b\n            name\n            email\n            id\n          \x7d\n        \x7d\n      \x7d\n    \x7d\n  \x7d\n\x7d" := by
  apply String.ext
  simp only [String.data_append, List.append_assoc]
  rfl

theorem ListTeams_loop_eq (orgSlug : String) (edges : List TeamsEdge)
    (hnode : ∀ e ∈ edges, e.Node ≠ none) (seen : List TeamsEdge) (i : Nat) (hi : seen.length = i)
    (teams : List (Option Team)) (li : Int) :
    ListTeams.loop orgSlug edges i { Edges := seen ++ edges, teams := teams, lastIndex := li }
      = .ok { Edges := seen ++ edges.map (attachOrgSlug orgSlug),
              teams := teams ++ edges.map (fun e => (attachOrgSlug orgSlug e).Node),
              lastIndex := if edges = [] then li else ((i + edges.length - 1 : Nat) : Int) } := by
  induction edges generalizing seen i teams li with
  | nil => simp [ListTeams.loop]
  | cons e rest ih =>
    obtain ⟨node⟩ := e
    cases node with
    | none => exact absurd rfl (hnode _ (List.mem_cons_self _ _))
    | some team =>
      have hrest : ∀ e ∈ rest, e.Node ≠ none := fun e he => hnode e (List.mem_cons_of_mem _ he)
      have hset : (seen ++ { Node := some team } :: rest).set i
            { Node := some { team with OrgSlug := orgSlug } }
          = (seen ++ [{ Node := some { team with OrgSlug := orgSlug } }]) ++ rest := by
        rw [List.set_append_right _ _ (by omega), hi]
        simp
      simp only [ListTeams.loop]
      rw [hset, ih hrest _ (i + 1) (by simp [hi])]
      cases rest with
      | nil => simp [attachOrgSlug]
      | cons e2 rest2 =>
        simp only [attachOrgSlug, List.map_cons, List.append_assoc, List.singleton_append,
          List.length_cons, reduceCtorEq, if_false, Option.map_some']
        congr 3
        omega

theorem ListTeamGrants_loop_eq (teamOrgSlug : String) (edges : List TeamMembersEdge)
    (huser : ∀ e ∈ edges, e.Node.User ≠ none) (i : Nat)
    (grants : List (Option TeamGrant)) (li : Int) :
    ListTeamGrants.loop teamOrgSlug edges i (grants, li)
      = .ok (grants ++ edges.map (fun e =>
                e.Node.User.map (fun u => { TeamID := teamOrgSlug, PrincipalID := u.ID })),
              if edges = [] then li else ((i + edges.length - 1 : Nat) : Int)) := by
  induction edges generalizing i grants li with
  | nil => simp [ListTeamGrants.loop]
  | cons e rest ih =>
    have hrest : ∀ e ∈ rest, e.Node.User ≠ none := fun e he => huser e (List.mem_cons_of_mem _ he)
    cases hu : e.Node.User with
    | none => exact absurd hu (huser _ (List.mem_cons_self _ _))
    | some user =>
      simp only [ListTeamGrants.loop, hu]
      rw [ih hrest]
      cases rest with
      | nil => simp [hu]
      | cons e2 rest2 =>
        simp only [List.map_cons, List.append_assoc, List.singleton_append, List.length_cons,
          reduceCtorEq, if_false, hu, Option.map_some']
        congr 3
        omega

theorem Errorf_users (err : GoError) :
    Errorf "buildkite-client: error getting all users %w" [.err err]
      = .wrapError ("buildkite-client: error getting all users " ++ err.Error) err := by
  have hs : Sprintf "buildkite-client: error getting all users %w" [.err err]
      = "buildkite-client: error getting all users " ++ err.Error := by
    apply String.ext
    have hd : (Sprintf "buildkite-client: error getting all users %w" [.err err]).data
        = "buildkite-client: error getting all users ".data ++ (err.Error.data ++ []) := rfl
    rw [hd, List.append_nil, String.data_append]
  have hw : wrappedOperand "buildkite-client: error getting all users %w".data [.err err]
      = some err := rfl
  simp only [Errorf, hw, hs]

theorem Errorf_teams (err : GoError) :
    Errorf "buildkite-client: error getting teams %w" [.err err]
      = .wrapError ("buildkite-client: error getting teams " ++ err.Error) err := by
  have hs : Sprintf "buildkite-client: error getting teams %w" [.err err]
      = "buildkite-client: error getting teams " ++ err.Error := by
    apply String.ext
    have hd : (Sprintf "buildkite-client: error getting teams %w" [.err err]).data
        = "buildkite-client: error getting teams ".data ++ (err.Error.data ++ []) := rfl
    rw [hd, List.append_nil, String.data_append]
  have hw : wrappedOperand "buildkite-client: error getting teams %w".data [.err err]
      = some err := rfl
  simp only [Errorf, hw, hs]

theorem Errorf_teamMembers (teamOrgSlug : String) (err : GoError) :
    Errorf "buildkite-client: error getting team members for %s: %w" [.str teamOrgSlug, .err err]
      = .wrapError ("buildkite-client: error getting team members for " ++ teamOrgSlug ++ ": "
          ++ err.Error) err := by
  have hs : Sprintf "buildkite-client: error getting team members for %s: %w"
        [.str teamOrgSlug, .err err]
      = "buildkite-client: error getting team members for " ++ teamOrgSlug ++ ": "
          ++ err.Error := by
    apply String.ext
    have hd : (Sprintf "buildkite-client: error getting team members for %s: %w"
          [.str teamOrgSlug, .err err]).data
        = "buildkite-client: error getting team members for ".data
            ++ (teamOrgSlug.data ++ (": ".data ++ (err.Error.data ++ []))) := rfl
    rw [hd, List.append_nil]
    simp only [String.data_append, List.append_assoc]
  have hw : wrappedOperand "buildkite-client: error getting team members for %s: %w".data
      [.str teamOrgSlug, .err err] = some err := rfl
  simp only [Errorf, hw, hs]

/-- When the query call fails, ListUsers returns a nil response and the wrapped error. -/
theorem ListUsers_of_query_error (c : connectorClient UsersQueryResponse) (slug pg : String)
    (cause : GoError) (h : (query c (allUsersQuery slug pg) {}).2.2 = some cause) :
    ListUsers c slug pg = .ok (none, some (.wrapError
      ("buildkite-client: error getting all users " ++ cause.Error) cause)) := by
  unfold ListUsers
  rcases hq : query c (allUsersQuery slug pg) {} with ⟨resp, rld, err⟩
  rw [hq] at h
  cases h
  simp only [Errorf_users]

/-- When the query call succeeds, ListUsers returns a response and no error: it
never panics, because `lastIndex` is an index of the edge list. -/
theorem ListUsers_of_query_ok (c : connectorClient UsersQueryResponse) (slug pg : String)
    (h : (query c (allUsersQuery slug pg) {}).2.2 = none) :
    ∃ rv : UsersResponse, ListUsers c slug pg = .ok (some rv, none)
      ∧ rv.Users = (query c (allUsersQuery slug pg) {}).1.Data.Organization.Members.Edges.map
          (fun e => e.Node.User) := by
  unfold ListUsers
  rcases hq : query c (allUsersQuery slug pg) {} with ⟨resp, rld, err⟩
  rw [hq] at h
  cases h
  simp only [ListUsers_loop_eq, List.nil_append, Nat.zero_add]
  cases hE : resp.Data.Organization.Members.Edges with
  | nil => simp
  | cons e rest =>
    have hpos : (((e :: rest).length - 1 : Nat) : Int) > -1 := by omega
    have hget : (e :: rest).get? ((e :: rest).length - 1) = some ((e :: rest).getLast (by simp)) := by
      rw [get?_pred_length_eq_getLast?]
      exact List.getLast?_eq_getLast _ _
    simp only [reduceCtorEq, if_false, if_pos hpos, Int.toNat_ofNat, hget]
    exact ⟨_, rfl, rfl⟩

/-- When the query call fails, ListTeams returns a nil response and the wrapped error. -/
theorem ListTeams_of_query_error (c : connectorClient TeamsQueryResponse) (slug pg : String)
    (cause : GoError) (h : (query c (teamsQuery slug pg) {}).2.2 = some cause) :
    ListTeams c slug pg = .ok (none, some (.wrapError
      ("buildkite-client: error getting teams " ++ cause.Error) cause)) := by
  unfold ListTeams
  rcases hq : query c (teamsQuery slug pg) {} with ⟨resp, rld, err⟩
  rw [hq] at h
  cases h
  simp only [Errorf_teams]

/-- When the query call succeeds, whatever ListTeams returns carries no error. -/
theorem ListTeams_of_query_ok (c : connectorClient TeamsQueryResponse) (slug pg : String)
    (h : (query c (teamsQuery slug pg) {}).2.2 = none)
    (out : Option TeamsResponse × Option GoError) (hout : ListTeams c slug pg = .ok out) :
    out.1 ≠ none ∧ out.2 = none := by
  unfold ListTeams at hout
  rcases hq : query c (teamsQuery slug pg) {} with ⟨resp, rld, err⟩
  rw [hq] at h hout
  cases h
  simp only at hout
  split at hout
  · cases hout
  · split at hout
    · split at hout
      · cases hout
      · split at hout
        · cases hout
        · cases hout
          exact ⟨by simp, rfl⟩
    · cases hout
      exact ⟨by simp, rfl⟩

/-- When the query call fails, ListTeamGrants returns a nil response and the wrapped error. -/
theorem ListTeamGrants_of_query_error (c : connectorClient TeamMembersQueryResponse)
    (slug pg : String) (cause : GoError)
    (h : (query c (teamMembersQuery slug pg) {}).2.2 = some cause) :
    ListTeamGrants c slug pg = .ok (none, some (.wrapError
      ("buildkite-client: error getting team members for " ++ slug ++ ": " ++ cause.Error)
      cause)) := by
  unfold ListTeamGrants
  rcases hq : query c (teamMembersQuery slug pg) {} with ⟨resp, rld, err⟩
  rw [hq] at h
  cases h
  simp only [Errorf_teamMembers]

/-- When the query call succeeds, whatever ListTeamGrants returns carries no error. -/
theorem ListTeamGrants_of_query_ok (c : connectorClient TeamMembersQueryResponse)
    (slug pg : String) (h : (query c (teamMembersQuery slug pg) {}).2.2 = none)
    (out : Option TeamsGrantsResponse × Option GoError)
    (hout : ListTeamGrants c slug pg = .ok out) :
    out.1 ≠ none ∧ out.2 = none := by
  unfold ListTeamGrants at hout
  rcases hq : query c (teamMembersQuery slug pg) {} with ⟨resp, rld, err⟩
  rw [hq] at h hout
  cases h
  simp only at hout
  split at hout
  · cases hout
  · split at hout
    · split at hout
      · cases hout
      · cases hout
        exact ⟨by simp, rfl⟩
    · cases hout
      exact ⟨by simp, rfl⟩

/-- Method `query` returns rate-limit data only together with a nil error. -/
theorem query_error_drops_rld {R : Type} (c : connectorClient R) (rawQuery : String) (res : R)
    (h : (query c rawQuery res).2.2 ≠ none) : (query c rawQuery res).2.1 = none := by
  unfold query at h ⊢
  cases hT : c.Token with
  | error e => simp
  | ok token =>
    simp only [hT] at h ⊢
    cases hN : c.NewRequest "POST" ("https://" ++ GraphQLDomain ++ "/" ++ GraphQLVersion)
        { Query := rawQuery } ("Bearer " ++ token.AccessToken) with
    | error e => simp
    | ok req =>
      simp only [hN] at h ⊢
      cases hD : (c.Do req res {}).err with
      | none => simp [hD] at h
      | some e => simp

/-- The loop of ListTeams panics as soon as one edge has a nil node. -/
theorem ListTeams_loop_panics (orgSlug : String) (edges : List TeamsEdge)
    (h : ∃ e ∈ edges, e.Node = none) (i : Nat) (st : TeamsLoopState) :
    ListTeams.loop orgSlug edges i st = .error .nilPointerDereference := by
  induction edges generalizing i st with
  | nil => simp at h
  | cons e rest ih =>
    cases hn : e.Node with
    | none => simp only [ListTeams.loop, hn]
    | some team =>
      simp only [ListTeams.loop, hn]
      apply ih
      obtain ⟨e2, he2, hnone⟩ := h
      rcases List.mem_cons.mp he2 with heq | hmem
      · subst heq
        rw [hn] at hnone
        cases hnone
      · exact ⟨e2, hmem, hnone⟩

/-- The loop of ListTeamGrants panics as soon as one edge has a nil user. -/
theorem ListTeamGrants_loop_panics (teamOrgSlug : String) (edges : List TeamMembersEdge)
    (h : ∃ e ∈ edges, e.Node.User = none) (i : Nat) (st : List (Option TeamGrant) × Int) :
    ListTeamGrants.loop teamOrgSlug edges i st = .error .nilPointerDereference := by
  induction edges generalizing i st with
  | nil => simp at h
  | cons e rest ih =>
    obtain ⟨grants, li⟩ := st
    cases hn : e.Node.User with
    | none => simp only [ListTeamGrants.loop, hn]
    | some user =>
      simp only [ListTeamGrants.loop, hn]
      apply ih
      obtain ⟨e2, he2, hnone⟩ := h
      rcases List.mem_cons.mp he2 with heq | hmem
      · subst heq
        rw [hn] at hnone
        cases hnone
      · exact ⟨e2, hmem, hnone⟩

/-- ListTeams panics on every decoded page that has an edge with a nil node. -/
theorem ListTeams_panics_of_nil_node (c : connectorClient TeamsQueryResponse) (slug pg : String)
    (h : (query c (teamsQuery slug pg) {}).2.2 = none)
    (hnil : ∃ e ∈ (query c (teamsQuery slug pg) {}).1.Data.Organization.Teams.Edges, e.Node = none) :
    ListTeams c slug pg = .error .nilPointerDereference := by
  unfold ListTeams
  rcases hq : query c (teamsQuery slug pg) {} with ⟨resp, rld, err⟩
  rw [hq] at h hnil
  cases h
  simp only [ListTeams_loop_panics slug _ hnil]

/-- ListTeamGrants panics on every decoded page that has an edge with a nil user. -/
theorem ListTeamGrants_panics_of_nil_user (c : connectorClient TeamMembersQueryResponse)
    (slug pg : String) (h : (query c (teamMembersQuery slug pg) {}).2.2 = none)
    (hnil : ∃ e ∈ (query c (teamMembersQuery slug pg) {}).1.Data.Team.Members.Edges,
      e.Node.User = none) :
    ListTeamGrants c slug pg = .error .nilPointerDereference := by
  unfold ListTeamGrants
  rcases hq : query c (teamMembersQuery slug pg) {} with ⟨resp, rld, err⟩
  rw [hq] at h hnil
  cases h
  simp only [ListTeamGrants_loop_panics slug _ hnil]

/-! ## Projection of a decoded page -/

/-- C1. ListUsers on a successfully decoded page with at least one edge returns,
without error, one user per edge in the order of the edges, and the cursor is
the ID of the last edge's node. -/
theorem ListUsers_projection (c : connectorClient UsersQueryResponse) (orgSlug pg : String)
    (resp : UsersQueryResponse) (rld : Option RateLimitDescription)
    (hq : query c (allUsersQuery orgSlug pg) {} = (resp, rld, none))
    (hn : 1 ≤ resp.Data.Organization.Members.Edges.length) :
    ∃ rv : UsersResponse, ListUsers c orgSlug pg = .ok (some rv, none)
      ∧ rv.Users.length = resp.Data.Organization.Members.Edges.length
      ∧ (∀ (i : Nat) (hi : i < resp.Data.Organization.Members.Edges.length),
          rv.Users[i]? = some (resp.Data.Organization.Members.Edges.get ⟨i, hi⟩).Node.User)
      ∧ (∃ last, resp.Data.Organization.Members.Edges.getLast? = some last
          ∧ rv.Pagination = last.Node.ID)
      ∧ rv.RateLimitDescription = rld := by
  obtain ⟨last, hlast⟩ : ∃ last, resp.Data.Organization.Members.Edges.getLast? = some last := by
    cases hE : resp.Data.Organization.Members.Edges with
    | nil => rw [hE] at hn; simp at hn
    | cons e rest => exact ⟨_, List.getLast?_eq_getLast _ (by simp)⟩
  have hne : resp.Data.Organization.Members.Edges ≠ [] := by
    intro h; rw [h] at hn; simp at hn
  have hget : resp.Data.Organization.Members.Edges.get?
      (resp.Data.Organization.Members.Edges.length - 1) = some last := by
    rw [get?_pred_length_eq_getLast?, hlast]
  refine ⟨{ Users := resp.Data.Organization.Members.Edges.map (fun e => e.Node.User),
            RateLimitDescription := rld, Pagination := last.Node.ID }, ?_, ?_, ?_, ?_, ?_⟩
  · unfold ListUsers
    rw [hq]
    simp only [ListUsers_loop_eq, List.nil_append, hne, if_false, Nat.zero_add]
    have hpos : ((resp.Data.Organization.Members.Edges.length - 1 : Nat) : Int) > -1 := by omega
    rw [if_pos hpos, Int.toNat_ofNat, hget]
  · simp
  · intro i hi
    simp [List.getElem?_map, List.getElem?_eq_getElem hi]
  · exact ⟨last, hlast, rfl⟩
  · rfl

/-- C1, on the page of two members `u1`, `u2` under nodes `n1`, `n2`. -/
theorem ListUsers_projection_witness :
    ∃ rv : UsersResponse,
      ListUsers (servingClient (usersPage twoUsersEdges) sampleRld) "acme" "" = .ok (some rv, none)
      ∧ rv.Users.length = twoUsersEdges.length
      ∧ (∀ (i : Nat) (hi : i < twoUsersEdges.length),
          rv.Users[i]? = some (twoUsersEdges.get ⟨i, hi⟩).Node.User)
      ∧ (∃ last, twoUsersEdges.getLast? = some last ∧ rv.Pagination = last.Node.ID)
      ∧ rv.RateLimitDescription = some sampleRld :=
  ListUsers_projection (servingClient (usersPage twoUsersEdges) sampleRld) "acme" ""
    (usersPage twoUsersEdges) (some sampleRld) rfl (by decide)

/-- C2. Empty terminal page: whenever the query call succeeds and the decoded
edge list is empty, each of ListUsers, ListTeams and ListTeamGrants returns a
non-nil response with an empty entity list and the empty cursor, and no error,
whatever the slug and the input cursor. -/
theorem empty_page_is_terminal :
    (∀ (c : connectorClient UsersQueryResponse) (slug pg : String) (resp : UsersQueryResponse)
        (rld : Option RateLimitDescription),
        query c (allUsersQuery slug pg) {} = (resp, rld, none) →
        resp.Data.Organization.Members.Edges = [] →
        ListUsers c slug pg
          = .ok (some { Users := [], RateLimitDescription := rld, Pagination := "" }, none))
    ∧ (∀ (c : connectorClient TeamsQueryResponse) (slug pg : String) (resp : TeamsQueryResponse)
        (rld : Option RateLimitDescription),
        query c (teamsQuery slug pg) {} = (resp, rld, none) →
        resp.Data.Organization.Teams.Edges = [] →
        ListTeams c slug pg
          = .ok (some { Teams := [], RateLimitDescription := rld, Pagination := "" }, none))
    ∧ (∀ (c : connectorClient TeamMembersQueryResponse) (slug pg : String)
        (resp : TeamMembersQueryResponse) (rld : Option RateLimitDescription),
        query c (teamMembersQuery slug pg) {} = (resp, rld, none) →
        resp.Data.Team.Members.Edges = [] →
        ListTeamGrants c slug pg
          = .ok (some { Grants := [], RateLimitDescription := rld, Pagination := "" }, none)) := by
  refine ⟨?_, ?_, ?_⟩
  · intro c slug pg resp rld hq he
    unfold ListUsers
    rw [hq]
    simp [he, ListUsers.loop]
  · intro c slug pg resp rld hq he
    unfold ListTeams
    rw [hq]
    simp [he, ListTeams.loop]
  · intro c slug pg resp rld hq he
    unfold ListTeamGrants
    rw [hq]
    simp [he, ListTeamGrants.loop]

/-- C2, on the scenario of the specification: team grants of `acme` requested
after cursor `n2`, answered with no edges. -/
theorem empty_page_is_terminal_witness :
    ListTeamGrants (servingClient (teamMembersPage []) sampleRld) "acme" "n2"
      = .ok (some { Grants := [], RateLimitDescription := some sampleRld, Pagination := "" }, none) :=
  empty_page_is_terminal.2.2 (servingClient (teamMembersPage []) sampleRld) "acme" "n2"
    (teamMembersPage []) (some sampleRld) rfl rfl

/-- C3. ListTeams on a successfully decoded page whose edges all carry a node
returns as many teams as edges, in the same order; each team has the caller's
org slug as OrgSlug and the Slug, Name and ID of its node; the cursor is the ID
of the last edge's node. -/
theorem ListTeams_attaches_orgSlug (c : connectorClient TeamsQueryResponse) (orgSlug pg : String)
    (resp : TeamsQueryResponse) (rld : Option RateLimitDescription)
    (hq : query c (teamsQuery orgSlug pg) {} = (resp, rld, none))
    (hnode : ∀ e ∈ resp.Data.Organization.Teams.Edges, e.Node ≠ none) :
    ∃ rv : TeamsResponse, ListTeams c orgSlug pg = .ok (some rv, none)
      ∧ rv.Teams.length = resp.Data.Organization.Teams.Edges.length
      ∧ (∀ (i : Nat) (hi : i < resp.Data.Organization.Teams.Edges.length) (node : Team),
          (resp.Data.Organization.Teams.Edges.get ⟨i, hi⟩).Node = some node →
          rv.Teams[i]? = some (some
            { OrgSlug := orgSlug, Slug := node.Slug, Name := node.Name, ID := node.ID }))
      ∧ (∀ (last : TeamsEdge) (node : Team),
          resp.Data.Organization.Teams.Edges.getLast? = some last → last.Node = some node →
          rv.Pagination = node.ID)
      ∧ rv.RateLimitDescription = rld := by
  have hloop := ListTeams_loop_eq orgSlug resp.Data.Organization.Teams.Edges hnode [] 0 rfl [] (-1)
  simp only [List.nil_append, Nat.zero_add] at hloop
  cases hE : resp.Data.Organization.Teams.Edges with
  | nil =>
    refine ⟨{ Teams := [], RateLimitDescription := rld, Pagination := "" }, ?_, ?_, ?_, ?_, ?_⟩
    · unfold ListTeams
      rw [hq]
      simp [hE, ListTeams.loop]
    · rfl
    · intro i hi; simp at hi
    · intro last node hl; simp at hl
    · rfl
  | cons e0 rest0 =>
    have hne : resp.Data.Organization.Teams.Edges ≠ [] := by rw [hE]; simp
    obtain ⟨last, hlast⟩ : ∃ last, resp.Data.Organization.Teams.Edges.getLast? = some last :=
      ⟨_, List.getLast?_eq_getLast _ hne⟩
    obtain ⟨node, hnodeLast⟩ : ∃ node, last.Node = some node :=
      Option.ne_none_iff_exists'.mp (hnode last (List.mem_of_getLast?_eq_some hlast))
    rw [← hE]
    refine ⟨{ Teams := resp.Data.Organization.Teams.Edges.map
                (fun e => (attachOrgSlug orgSlug e).Node),
              RateLimitDescription := rld, Pagination := node.ID }, ?_, ?_, ?_, ?_, ?_⟩
    · unfold ListTeams
      rw [hq]
      simp only [hloop, hne, if_false]
      have hpos : ((resp.Data.Organization.Teams.Edges.length - 1 : Nat) : Int) > -1 := by omega
      have hget : (resp.Data.Organization.Teams.Edges.map (attachOrgSlug orgSlug)).get?
          (resp.Data.Organization.Teams.Edges.length - 1) = some (attachOrgSlug orgSlug last) := by
        have h := get?_pred_length_eq_getLast?
          (resp.Data.Organization.Teams.Edges.map (attachOrgSlug orgSlug))
        rw [List.length_map] at h
        rw [h, List.getLast?_map, hlast]
        rfl
      rw [if_pos hpos, Int.toNat_ofNat, hget]
      simp [attachOrgSlug, hnodeLast]
    · simp
    · intro i hi nd hnd
      have hnd' : resp.Data.Organization.Teams.Edges[i].Node = some nd := hnd
      simp [List.getElem?_map, List.getElem?_eq_getElem hi, attachOrgSlug, hnd']
    · intro last2 node2 hl2 hn2
      rw [hlast] at hl2
      cases hl2
      rw [hnodeLast] at hn2
      cases hn2
      rfl
    · rfl

/-- C3, on a page of two teams, one of which was decoded with another org slug. -/
theorem ListTeams_attaches_orgSlug_witness :
    ∃ rv : TeamsResponse,
      ListTeams (servingClient (teamsPage twoTeamsEdges) sampleRld) "acme" "" = .ok (some rv, none)
      ∧ rv.Teams.length = twoTeamsEdges.length
      ∧ (∀ (i : Nat) (hi : i < twoTeamsEdges.length) (node : Team),
          (twoTeamsEdges.get ⟨i, hi⟩).Node = some node →
          rv.Teams[i]? = some (some
            { OrgSlug := "acme", Slug := node.Slug, Name := node.Name, ID := node.ID }))
      ∧ (∀ (last : TeamsEdge) (node : Team),
          twoTeamsEdges.getLast? = some last → last.Node = some node → rv.Pagination = node.ID)
      ∧ rv.RateLimitDescription = some sampleRld :=
  ListTeams_attaches_orgSlug (servingClient (teamsPage twoTeamsEdges) sampleRld) "acme" ""
    (teamsPage twoTeamsEdges) (some sampleRld) rfl (by decide)

/-- C4. ListTeamGrants on a successfully decoded page whose edges all carry a
user returns one grant per edge, in order, each with TeamID the caller's slug
and PrincipalID the ID of the edge's user; the cursor is the ID of the last
edge's node, the membership. -/
theorem ListTeamGrants_reshapes (c : connectorClient TeamMembersQueryResponse)
    (teamOrgSlug pg : String) (resp : TeamMembersQueryResponse) (rld : Option RateLimitDescription)
    (hq : query c (teamMembersQuery teamOrgSlug pg) {} = (resp, rld, none))
    (huser : ∀ e ∈ resp.Data.Team.Members.Edges, e.Node.User ≠ none) :
    ∃ rv : TeamsGrantsResponse, ListTeamGrants c teamOrgSlug pg = .ok (some rv, none)
      ∧ rv.Grants.length = resp.Data.Team.Members.Edges.length
      ∧ (∀ (i : Nat) (hi : i < resp.Data.Team.Members.Edges.length) (user : User),
          (resp.Data.Team.Members.Edges.get ⟨i, hi⟩).Node.User = some user →
          rv.Grants[i]? = some (some { TeamID := teamOrgSlug, PrincipalID := user.ID }))
      ∧ (∀ (last : TeamMembersEdge),
          resp.Data.Team.Members.Edges.getLast? = some last → rv.Pagination = last.Node.ID)
      ∧ rv.RateLimitDescription = rld := by
  have hloop := ListTeamGrants_loop_eq teamOrgSlug resp.Data.Team.Members.Edges huser 0 [] (-1)
  simp only [List.nil_append, Nat.zero_add] at hloop
  cases hE : resp.Data.Team.Members.Edges with
  | nil =>
    refine ⟨{ Grants := [], RateLimitDescription := rld, Pagination := "" }, ?_, ?_, ?_, ?_, ?_⟩
    · unfold ListTeamGrants
      rw [hq]
      simp [hE, ListTeamGrants.loop]
    · rfl
    · intro i hi; simp at hi
    · intro last hl; simp at hl
    · rfl
  | cons e0 rest0 =>
    have hne : resp.Data.Team.Members.Edges ≠ [] := by rw [hE]; simp
    obtain ⟨last, hlast⟩ : ∃ last, resp.Data.Team.Members.Edges.getLast? = some last :=
      ⟨_, List.getLast?_eq_getLast _ hne⟩
    rw [← hE]
    refine ⟨{ Grants := resp.Data.Team.Members.Edges.map (fun e =>
                e.Node.User.map (fun u => { TeamID := teamOrgSlug, PrincipalID := u.ID })),
              RateLimitDescription := rld, Pagination := last.Node.ID }, ?_, ?_, ?_, ?_, ?_⟩
    · unfold ListTeamGrants
      rw [hq]
      simp only [hloop, hne, if_false]
      have hpos : ((resp.Data.Team.Members.Edges.length - 1 : Nat) : Int) > -1 := by omega
      have hget : resp.Data.Team.Members.Edges.get?
          (resp.Data.Team.Members.Edges.length - 1) = some last := by
        rw [get?_pred_length_eq_getLast?, hlast]
      rw [if_pos hpos, Int.toNat_ofNat, hget]
    · simp
    · intro i hi user hu
      have hu' : resp.Data.Team.Members.Edges[i].Node.User = some user := hu
      simp [List.getElem?_map, List.getElem?_eq_getElem hi, hu']
    · intro last2 hl2
      rw [hlast] at hl2
      cases hl2
      rfl
    · rfl

/-- C4, on a page of two team members. -/
theorem ListTeamGrants_reshapes_witness :
    ∃ rv : TeamsGrantsResponse,
      ListTeamGrants (servingClient (teamMembersPage twoMembersEdges) sampleRld) "acme/ops" ""
        = .ok (some rv, none)
      ∧ rv.Grants.length = twoMembersEdges.length
      ∧ (∀ (i : Nat) (hi : i < twoMembersEdges.length) (user : User),
          (twoMembersEdges.get ⟨i, hi⟩).Node.User = some user →
          rv.Grants[i]? = some (some { TeamID := "acme/ops", PrincipalID := user.ID }))
      ∧ (∀ (last : TeamMembersEdge),
          twoMembersEdges.getLast? = some last → rv.Pagination = last.Node.ID)
      ∧ rv.RateLimitDescription = some sampleRld :=
  ListTeamGrants_reshapes (servingClient (teamMembersPage twoMembersEdges) sampleRld) "acme/ops" ""
    (teamMembersPage twoMembersEdges) (some sampleRld) rfl (by decide)

/-! ## The pagination clause -/

/-- C5. The first page clause is `first: 100`, but a cursor is written after
`after:` as it is, without the double quotes of a GraphQL string literal:
the cursor `abc123` renders as `first: 100 after: abc123`, also inside the
teams query. -/
theorem pagination_cursor_not_quoted :
    pagination "" = "first: 100"
    ∧ pagination "abc123" = "first: 100 after: abc123"
    ∧ pagination "abc123" ≠ "first: 100 after: \"abc123\""
    ∧ "teams(first: 100 after: abc123)".data <:+: (teamsQuery "acme" "abc123").data := by
  decide

/-- C6. For a non-empty cursor the clause is the first-page clause followed by
` after: ` and the cursor, so the first-page clause is a proper prefix of it;
the first-page clause has no `after:`; every clause starts with `first: 100`;
and the three paginated queries carry that clause as their page argument. -/
theorem pagination_only_adds_after (slug c : String) :
    (c ≠ "" →
      pagination c = pagination "" ++ " after: " ++ c
      ∧ (pagination "").data <+: (pagination c).data
      ∧ pagination "" ≠ pagination c)
    ∧ ¬ ("after:".data <:+: (pagination "").data)
    ∧ "first: 100".data <+: (pagination c).data
    ∧ allUsersQuery slug c
        = "query getOrgMembers\x7b\n  organization(slug: \"" ++ slug
          ++ "\") \x7b\n    members(" ++ pagination c
          ++ " ) \x7b\n      edges \x7b\n        node \x7b\n          role\n          user \x7b\n            name\n            email\n            id\n          \x7d\n        \x7d\n      \x7d\n    \x7d\n  \x7d\n\x7d"
    ∧ teamsQuery slug c
        = "query getTeams \x7b\n  organization(slug: \"" ++ slug
          ++ "\") \x7b\n    teams(" ++ pagination c
          ++ ") \x7b\n      edges \x7b\n        node \x7b\n          slug\n          name\n          id\n        \x7d\n      \x7d\n    \x7d\n  \x7d\n\x7d"
    ∧ teamMembersQuery slug c
        = "query getTeamMembers \x7b\n  team(slug: \"" ++ slug
          ++ "\") \x7b\n    members(" ++ pagination c
          ++ ") \x7b\n      edges \x7b\n        node \x7b\n          role\n          id\n          user \x7b\n            name\n            email\n            id\n          \x7d\n        \x7d\n      \x7d\n    \x7d\n  \x7d\n\x7d" := by
  refine ⟨?_, by decide, pagination_starts_with_page_size c, allUsersQuery_eq slug c,
    teamsQuery_eq slug c, teamMembersQuery_eq slug c⟩
  intro hc
  have hdata := pagination_data_of_ne c hc
  refine ⟨?_, ?_, ?_⟩
  · rw [pagination_of_ne c hc, pagination_empty]
    apply String.ext
    simp only [String.data_append, List.append_assoc]
    rfl
  · rw [hdata, pagination_empty]
    exact ⟨" after: ".data ++ c.data, rfl⟩
  · intro heq
    have hlen : (pagination "").data.length = (pagination c).data.length := by rw [← heq]
    rw [hdata, List.length_append] at hlen
    have h10 : (pagination "").data.length = 10 := by decide
    have h18 : "first: 100 after: ".data.length = 18 := by decide
    omega

/-- C6, on the cursor `abc123` and the slug `acme`. -/
theorem pagination_only_adds_after_witness :
    pagination "abc123" = pagination "" ++ " after: " ++ "abc123"
    ∧ (pagination "").data <+: (pagination "abc123").data
    ∧ pagination "" ≠ pagination "abc123" :=
  (pagination_only_adds_after "acme" "abc123").1 (by decide)

/-! ## Errors -/

/-- C7, as stated, fails: the errors of ListUsers and ListTeams for the org
`acme` carry a fixed prefix and the cause, and the slug occurs nowhere in the
message. -/
theorem ListUsers_error_omits_slug :
    ListUsers (failingClient {} 500 (.errorString "boom")) "acme" ""
      = .ok (none, some (.wrapError "buildkite-client: error getting all users boom"
          (.errorString "boom")))
    ∧ ¬ ("acme".data <:+: "buildkite-client: error getting all users boom".data)
    ∧ ListTeams (failingClient {} 500 (.errorString "boom")) "acme" ""
      = .ok (none, some (.wrapError "buildkite-client: error getting teams boom"
          (.errorString "boom")))
    ∧ ¬ ("acme".data <:+: "buildkite-client: error getting teams boom".data) := by
  refine ⟨rfl, by decide, rfl, by decide⟩

/-- C7, amended. Each of ListUsers, ListTeams and ListTeamGrants returns an
error exactly when the query call returned one; the response is then nil, the
error unwraps to the cause, and its message is the prefix of the operation
followed by the message of the cause. The prefix is fixed for ListUsers and
ListTeams; the prefix of ListTeamGrants names the slug. -/
theorem list_errors_wrap_cause :
    (∀ (c : connectorClient UsersQueryResponse) (slug pg : String),
      ((∃ rv e, ListUsers c slug pg = .ok (rv, some e))
          ↔ (query c (allUsersQuery slug pg) {}).2.2 ≠ none)
      ∧ ∀ cause, (query c (allUsersQuery slug pg) {}).2.2 = some cause →
          ∃ e, ListUsers c slug pg = .ok (none, some e) ∧ e.Unwrap = some cause
            ∧ e.Error = "buildkite-client: error getting all users " ++ cause.Error)
    ∧ (∀ (c : connectorClient TeamsQueryResponse) (slug pg : String),
      ((∃ rv e, ListTeams c slug pg = .ok (rv, some e))
          ↔ (query c (teamsQuery slug pg) {}).2.2 ≠ none)
      ∧ ∀ cause, (query c (teamsQuery slug pg) {}).2.2 = some cause →
          ∃ e, ListTeams c slug pg = .ok (none, some e) ∧ e.Unwrap = some cause
            ∧ e.Error = "buildkite-client: error getting teams " ++ cause.Error)
    ∧ (∀ (c : connectorClient TeamMembersQueryResponse) (slug pg : String),
      ((∃ rv e, ListTeamGrants c slug pg = .ok (rv, some e))
          ↔ (query c (teamMembersQuery slug pg) {}).2.2 ≠ none)
      ∧ ∀ cause, (query c (teamMembersQuery slug pg) {}).2.2 = some cause →
          ∃ e, ListTeamGrants c slug pg = .ok (none, some e) ∧ e.Unwrap = some cause
            ∧ e.Error = "buildkite-client: error getting team members for " ++ slug ++ ": "
                ++ cause.Error) := by
  refine ⟨?_, ?_, ?_⟩
  · intro c slug pg
    refine ⟨⟨?_, ?_⟩, ?_⟩
    · rintro ⟨rv, e, hre⟩ hnone
      obtain ⟨rv2, hok, _⟩ := ListUsers_of_query_ok c slug pg hnone
      rw [hok] at hre
      cases hre
    · intro hne
      obtain ⟨cause, hc⟩ := Option.ne_none_iff_exists'.mp hne
      exact ⟨none, _, ListUsers_of_query_error c slug pg cause hc⟩
    · intro cause hc
      exact ⟨_, ListUsers_of_query_error c slug pg cause hc, rfl, rfl⟩
  · intro c slug pg
    refine ⟨⟨?_, ?_⟩, ?_⟩
    · rintro ⟨rv, e, hre⟩ hnone
      have h := (ListTeams_of_query_ok c slug pg hnone _ hre).2
      cases h
    · intro hne
      obtain ⟨cause, hc⟩ := Option.ne_none_iff_exists'.mp hne
      exact ⟨none, _, ListTeams_of_query_error c slug pg cause hc⟩
    · intro cause hc
      exact ⟨_, ListTeams_of_query_error c slug pg cause hc, rfl, rfl⟩
  · intro c slug pg
    refine ⟨⟨?_, ?_⟩, ?_⟩
    · rintro ⟨rv, e, hre⟩ hnone
      have h := (ListTeamGrants_of_query_ok c slug pg hnone _ hre).2
      cases h
    · intro hne
      obtain ⟨cause, hc⟩ := Option.ne_none_iff_exists'.mp hne
      exact ⟨none, _, ListTeamGrants_of_query_error c slug pg cause hc⟩
    · intro cause hc
      exact ⟨_, ListTeamGrants_of_query_error c slug pg cause hc, rfl, rfl⟩

/-- C7 amended, on a failing call for the team `acme/ops`. -/
theorem list_errors_wrap_cause_witness :
    ∃ e, ListTeamGrants (failingClient {} 500 (.errorString "boom")) "acme/ops" ""
        = .ok (none, some e)
      ∧ e.Unwrap = some (.errorString "boom")
      ∧ e.Error = "buildkite-client: error getting team members for " ++ "acme/ops" ++ ": "
          ++ (GoError.errorString "boom").Error :=
  (list_errors_wrap_cause.2.2 (failingClient {} 500 (.errorString "boom")) "acme/ops" "").2
    (.errorString "boom") rfl

/-- C8. A call that fails with a 429 after the rate-limit data was written
loses that data: query returns a nil description, the three list operations
return a nil response, and userBuilder.List returns no annotation. -/
theorem rate_limit_lost_on_failure :
    (∀ req res rld, ((failingClient exhaustedRld 429 tooManyRequests :
        connectorClient UsersQueryResponse).Do req res rld).rld = exhaustedRld)
    ∧ query (failingClient exhaustedRld 429 tooManyRequests : connectorClient UsersQueryResponse)
        (allUsersQuery "acme" "") {} = ({}, none, some tooManyRequests)
    ∧ ListUsers (failingClient exhaustedRld 429 tooManyRequests) "acme" ""
        = .ok (none, some (.wrapError
            "buildkite-client: error getting all users 429 Too Many Requests: rate limited"
            tooManyRequests))
    ∧ ListTeams (failingClient exhaustedRld 429 tooManyRequests) "acme" ""
        = .ok (none, some (.wrapError
            "buildkite-client: error getting teams 429 Too Many Requests: rate limited"
            tooManyRequests))
    ∧ ListTeamGrants (failingClient exhaustedRld 429 tooManyRequests) "acme/ops" ""
        = .ok (none, some (.wrapError
            "buildkite-client: error getting team members for acme/ops: 429 Too Many Requests: rate limited"
            tooManyRequests))
    ∧ userBuilder.List recordUserResource
        { c := failingClient exhaustedRld 429 tooManyRequests, org := "acme" } none (some {})
        = .ok ([], "", [], some (.wrapError
            "buildkite-client: error getting all users 429 Too Many Requests: rate limited"
            tooManyRequests)) := by
  refine ⟨fun _ _ _ => rfl, rfl, rfl, rfl, rfl, rfl⟩

/-! ## Nil nodes and users -/

/-- C9. A decoded page may hold a nil node or a nil user, and then the code
panics: ListTeams on a teams edge with a nil node, ListTeamGrants on a member
edge with a nil user; ListUsers passes a nil user on, and userBuilder.List
panics on it. -/
theorem nil_node_or_user_panics :
    ListTeams (servingClient (teamsPage [{ Node := none }]) sampleRld) "acme" ""
        = .error .nilPointerDereference
    ∧ ListTeamGrants (servingClient
          (teamMembersPage [{ Node := { Role := "MEMBER", ID := "m1", User := none } }]) sampleRld)
          "acme/ops" ""
        = .error .nilPointerDereference
    ∧ ListUsers (servingClient
          (usersPage [{ Node := { ID := "n1", Role := "MEMBER", User := none } }]) sampleRld)
          "acme" ""
        = .ok (some { Users := [none], RateLimitDescription := some sampleRld, Pagination := "n1" },
            none)
    ∧ userBuilder.List recordUserResource
        { c := servingClient
            (usersPage [{ Node := { ID := "n1", Role := "MEMBER", User := none } }]) sampleRld,
          org := "acme" } none (some {})
        = .error .nilPointerDereference := by
  refine ⟨rfl, rfl, rfl, rfl⟩

/-! ## The cursor field in the query templates -/

/-- C10. The teams query and the team-members query select `id` under `node`,
the org-members query does not: it selects `role` and `user` only. A server
that answers exactly the fields requested leaves `Node.ID` empty, and ListUsers
then returns the empty cursor for a page of two members. -/
theorem users_query_node_lacks_id :
    nodeSelection (allUsersQuery "acme" "") = ["role", "user"]
    ∧ nodeSelection (allUsersQuery "acme" "n2") = ["role", "user"]
    ∧ nodeSelection (teamsQuery "acme" "") = ["slug", "name", "id"]
    ∧ nodeSelection (teamMembersQuery "acme/ops" "") = ["role", "id", "user"]
    ∧ ListUsers (servingClient (usersPage usersEdgesAsRequested) sampleRld) "acme" ""
        = .ok (some { Users := [some { ID := "u1", Email := "a@x.io", Name := "A" },
                                some { ID := "u2", Email := "b@x.io", Name := "B" }],
                      RateLimitDescription := some sampleRld, Pagination := "" }, none) := by
  refine ⟨by decide, by decide, by decide, by decide, rfl⟩

end Buildkite
